import Mathlib

/-!
Verification of the fraction-approximation core of the
Precision-Tape-Measure-Visualizer repository.

The source file exports two functions:

* `decimalToFraction (value, maxDenominator)` — finds the nearest fraction
  with a power-of-two denominator bounded by `maxDenominator`, and
* `formatFraction (result)` — renders a `FractionResult` as a tape-measure
  reading such as `5 3/8"`.

JavaScript numbers are modelled as rationals (`ℚ`); `Math.floor` is `Int.floor`,
`Math.round x` is `⌊x + 0.5⌋`, and the source's recursive `gcd` helper is
embedded as `jsGcd`.  The search loop (`for (let d = 2; d <= maxDenominator;
d *= 2)`) is embedded as a fuel-indexed recursion `searchFrom`; fuel
`maxDenominator` strictly exceeds the number of iterations the loop can make
(`⌊log₂ maxDenominator⌋`), so the recursion always terminates by the loop
condition `d ≤ maxDenominator`, exactly like the source.
-/

namespace TapeMeasure

/-- JavaScript `Math.round` on a rational: `Math.round x = ⌊x + 0.5⌋`, which
agrees with JavaScript on every input the source feeds it
(`decimalPart * d` with `decimalPart ∈ [0,1)`). -/
def jsRound (q : ℚ) : ℤ := ⌊q + 1/2⌋

/-- The `FractionResult` interface of the source. -/
structure FractionResult where
  whole : ℤ
  numerator : ℕ
  denominator : ℕ
  decimal : ℚ
  error : ℚ
deriving DecidableEq, Repr

/-- The running best candidate of the search loop: the mutable variables
`bestNumerator`, `bestDenominator`, `minError` of the source. -/
structure Best where
  num : ℕ
  den : ℕ
  minError : ℚ
deriving DecidableEq, Repr

/-- One iteration of the loop body for candidate denominator `d`:
`n = Math.round(decimalPart * d)`, `error = |decimalPart - n/d|`, and the
best triple is replaced only when `error < minError - 0.00001`. -/
def step (fp : ℚ) (best : Best) (d : ℕ) : Best :=
  let n : ℕ := (jsRound (fp * d)).toNat
  let err : ℚ := |fp - (n : ℚ) / (d : ℚ)|
  if err < best.minError - 1/100000 then ⟨n, d, err⟩ else best

/-- The loop `for (let d = 2; d <= maxDenominator; d *= 2)`, with explicit
fuel.  Called with fuel `maxD`, which strictly exceeds the iteration count,
so the recursion always stops because `d > maxD`, never by exhausting fuel. -/
def searchFrom (fp : ℚ) (maxD : ℕ) : ℕ → ℕ → Best → Best
  | 0, _, best => best
  | fuel + 1, d, best =>
      if d ≤ maxD then searchFrom fp maxD fuel (2 * d) (step fp best d)
      else best

set_option linter.unusedVariables false in
/-- The source's local helper
`const gcd = (a, b) => b === 0 ? a : gcd(b, a % b)`. -/
def jsGcd (a b : ℕ) : ℕ :=
  if h : b = 0 then a else jsGcd b (a % b)
termination_by b
decreasing_by exact Nat.mod_lt a (Nat.pos_of_ne_zero h)

/-- Embedding of `decimalToFraction(value, maxDenominator)` from the source,
clause by clause: floor/fractional split, the `|decimalPart| < 0.0001`
whole-number fast path, the doubling search seeded at `1/1`, and the final
gcd reduction. -/
def decimalToFraction (value : ℚ) (maxDenominator : ℕ) : FractionResult :=
  let whole : ℤ := ⌊value⌋
  let decimalPart : ℚ := value - (whole : ℚ)
  if |decimalPart| < 1/10000 then
    { whole := whole, numerator := 0, denominator := 1, decimal := value, error := 0 }
  else
    let seed : Best := ⟨1, 1, |decimalPart - 1 / 1|⟩
    let best := searchFrom decimalPart maxDenominator maxDenominator 2 seed
    let commonDivisor := jsGcd best.num best.den
    { whole := whole
      numerator := best.num / commonDivisor
      denominator := best.den / commonDivisor
      decimal := value
      error := best.minError }

/-- Embedding of `formatFraction(result)` from the source.  The inch mark is
the literal double-quote character. -/
def formatFraction (result : FractionResult) : String :=
  if result.numerator = 0 ∨ result.numerator = result.denominator then
    (if result.numerator = result.denominator then toString (result.whole + 1)
     else toString result.whole) ++ "\""
  else if result.whole = 0 then
    toString result.numerator ++ "/" ++ toString result.denominator ++ "\""
  else
    toString result.whole ++ " " ++ toString result.numerator ++ "/"
      ++ toString result.denominator ++ "\""

/-- The numerator the loop tries at denominator `d`:
`Math.round(decimalPart * d)` (nonnegative whenever `fp ≥ 0`). -/
def candNum (fp : ℚ) (d : ℕ) : ℕ := (jsRound (fp * d)).toNat

/-- The error of the candidate at denominator `d`. -/
def candErr (fp : ℚ) (d : ℕ) : ℚ := |fp - (candNum fp d : ℚ) / (d : ℚ)|

/-! ### General lemmas about the loop body and the search -/

/-- The loop body `step` written through the candidate views
`candNum`/`candErr`. -/
theorem step_def (fp : ℚ) (best : Best) (d : ℕ) :
    step fp best d =
      if candErr fp d < best.minError - 1/100000 then ⟨candNum fp d, d, candErr fp d⟩
      else best := rfl

/-- The source's `gcd` helper agrees with `Nat.gcd` with the arguments
swapped. -/
theorem jsGcd_eq (a b : ℕ) : jsGcd a b = Nat.gcd b a := by
  induction b using Nat.strong_induction_on generalizing a with
  | _ b ih =>
    rw [jsGcd]
    by_cases hb : b = 0
    · simp [hb]
    · rw [dif_neg hb, ih (a % b) (Nat.mod_lt a (Nat.pos_of_ne_zero hb)) b]
      exact (Nat.gcd_rec b a).symm

/-- The loop body never increases the running minimum error. -/
theorem step_minError_le (fp : ℚ) (best : Best) (d : ℕ) :
    (step fp best d).minError ≤ best.minError := by
  rw [step_def]
  split
  · next h => linarith
  · exact le_rfl

/-- After the loop body runs on candidate `d`, the running minimum error is
within the `1e-5` margin of the candidate's error. -/
theorem step_minError_le_cand (fp : ℚ) (best : Best) (d : ℕ) :
    (step fp best d).minError ≤ candErr fp d + 1/100000 := by
  rw [step_def]
  split
  · next h =>
    have : (0:ℚ) ≤ 1/100000 := by norm_num
    simp only
    linarith
  · next h => push_neg at h; linarith

/-- The whole search never increases the running minimum error. -/
theorem searchFrom_minError_le (fp : ℚ) (maxD : ℕ) :
    ∀ fuel d best, (searchFrom fp maxD fuel d best).minError ≤ best.minError := by
  intro fuel
  induction fuel with
  | zero => intro d best; exact le_rfl
  | succ n ih =>
    intro d best
    rw [searchFrom]
    split
    · exact le_trans (ih (2 * d) (step fp best d)) (step_minError_le fp best d)
    · exact le_rfl

/-- If the loop still has fuel left to reach candidate `d * 2^i` and that
candidate is within the bound, the final minimum error is within the `1e-5`
margin of that candidate's error. -/
theorem searchFrom_le_processed (fp : ℚ) (maxD : ℕ) :
    ∀ fuel d best i, i < fuel → d * 2^i ≤ maxD →
      (searchFrom fp maxD fuel d best).minError ≤ candErr fp (d * 2^i) + 1/100000 := by
  intro fuel
  induction fuel with
  | zero => intro d best i hi; exact absurd hi (Nat.not_lt_zero i)
  | succ n ih =>
    intro d best i hi hle
    have hd : d ≤ maxD := by
      calc d = d * 1 := (Nat.mul_one d).symm
      _ ≤ d * 2^i := Nat.mul_le_mul_left d (Nat.one_le_two_pow)
      _ ≤ maxD := hle
    rw [searchFrom, if_pos hd]
    cases i with
    | zero =>
      calc (searchFrom fp maxD n (2 * d) (step fp best d)).minError
          ≤ (step fp best d).minError := searchFrom_minError_le fp maxD n _ _
        _ ≤ candErr fp d + 1/100000 := step_minError_le_cand fp best d
        _ = candErr fp (d * 2^0) + 1/100000 := by rw [Nat.pow_zero, Nat.mul_one]
    | succ j =>
      have hj : j < n := Nat.lt_of_succ_lt_succ hi
      have hle' : (2 * d) * 2^j ≤ maxD := by
        calc (2 * d) * 2^j = d * (2 * 2^j) := by ring
        _ = d * 2^(j+1) := by rw [Nat.pow_succ]; ring_nf
        _ ≤ maxD := hle
      have := ih (2 * d) (step fp best d) j hj hle'
      calc (searchFrom fp maxD n (2 * d) (step fp best d)).minError
          ≤ candErr fp ((2 * d) * 2^j) + 1/100000 := this
        _ = candErr fp (d * 2^(j+1)) + 1/100000 := by
            congr 2
            calc (2 * d) * 2^j = d * (2 * 2^j) := by ring
            _ = d * 2^(j+1) := by rw [Nat.pow_succ]; ring_nf

/-- Generic preserved invariant of the search: any property of the best
triple that every accepted in-range power-of-two candidate preserves holds
at the end of the loop. -/
theorem searchFrom_inv (fp : ℚ) (maxD : ℕ) (P : Best → Prop)
    (hstep : ∀ best d, 2 ≤ d → d ≤ maxD → (∃ j, d = 2^j) → P best → P (step fp best d)) :
    ∀ fuel j best, 1 ≤ j → P best → P (searchFrom fp maxD fuel (2^j) best) := by
  intro fuel
  induction fuel with
  | zero => intro j best hj hP; exact hP
  | succ n ih =>
    intro j best hj hP
    rw [searchFrom]
    split
    · next hle =>
      have h2 : 2 * 2^j = 2^(j+1) := by rw [Nat.pow_succ]; ring
      have htwo : 2 ≤ 2^j := by
        calc 2 = 2^1 := rfl
        _ ≤ 2^j := Nat.pow_le_pow_right (by norm_num) hj
      rw [h2]
      exact ih (j+1) (step fp best (2^j)) (Nat.le_succ_of_le hj)
        (hstep best (2^j) htwo hle ⟨j, rfl⟩ hP)
    · next => exact hP

/-- Rounding to the nearest `d`-th: the candidate at denominator `d` is
within `1/(2d)` of the fractional part. -/
theorem candErr_le_half (fp : ℚ) (d : ℕ) (hfp : 0 ≤ fp) (hd : 1 ≤ d) :
    candErr fp d ≤ 1 / (2 * (d : ℚ)) := by
  have hd0 : (0:ℚ) < d := by exact_mod_cast Nat.lt_of_lt_of_le Nat.zero_lt_one hd
  have hx : (0:ℚ) ≤ fp * d := mul_nonneg hfp hd0.le
  have hround : (0:ℤ) ≤ jsRound (fp * d) := Int.floor_nonneg.mpr (by linarith)
  have hcast : ((candNum fp d : ℕ) : ℚ) = ((jsRound (fp * (d:ℚ)) : ℤ) : ℚ) := by
    unfold candNum
    exact_mod_cast congrArg (fun z : ℤ => (z : ℚ)) (Int.toNat_of_nonneg hround)
  have habs : |fp * d - (jsRound (fp * (d:ℚ)) : ℚ)| ≤ 1/2 := by
    unfold jsRound
    have h1 : ((⌊fp * d + 1/2⌋ : ℤ) : ℚ) ≤ fp * d + 1/2 := Int.floor_le _
    have h2 : fp * d + 1/2 - 1 < ((⌊fp * d + 1/2⌋ : ℤ) : ℚ) := Int.sub_one_lt_floor _
    rw [abs_le]
    constructor <;> linarith
  unfold candErr
  rw [hcast]
  have hsplit : fp - ((jsRound (fp * (d:ℚ)) : ℤ) : ℚ) / d
      = (fp * d - ((jsRound (fp * (d:ℚ)) : ℤ) : ℚ)) / d := by
    field_simp
  rw [hsplit, abs_div, abs_of_pos hd0]
  calc |fp * d - ((jsRound (fp * (d:ℚ)) : ℤ) : ℚ)| / d ≤ (1/2) / d := by gcongr
    _ = 1 / (2 * d) := by ring

/-- The search keeps `minError` equal to the unsigned distance between the
fractional part and the running best fraction. -/
theorem searchFrom_repOk (fp : ℚ) (maxD : ℕ) (fuel j : ℕ) (best : Best) (hj : 1 ≤ j)
    (h : best.minError = |fp - (best.num : ℚ) / (best.den : ℚ)|) :
    (searchFrom fp maxD fuel (2^j) best).minError =
      |fp - ((searchFrom fp maxD fuel (2^j) best).num : ℚ)
        / ((searchFrom fp maxD fuel (2^j) best).den : ℚ)| := by
  refine searchFrom_inv fp maxD
    (fun b => b.minError = |fp - (b.num : ℚ) / (b.den : ℚ)|) ?_ fuel j best hj h
  intro b d h2 hle hpow hb
  rw [step_def]
  split
  · rfl
  · exact hb

/-- The search keeps the best denominator a power of two between `1` and
`maxD`. -/
theorem searchFrom_denOk (fp : ℚ) (maxD : ℕ) (fuel j : ℕ) (best : Best) (hj : 1 ≤ j)
    (h : (∃ k, best.den = 2^k) ∧ 1 ≤ best.den ∧ best.den ≤ maxD) :
    (∃ k, (searchFrom fp maxD fuel (2^j) best).den = 2^k) ∧
      1 ≤ (searchFrom fp maxD fuel (2^j) best).den ∧
      (searchFrom fp maxD fuel (2^j) best).den ≤ maxD := by
  refine searchFrom_inv fp maxD
    (fun b => (∃ k, b.den = 2^k) ∧ 1 ≤ b.den ∧ b.den ≤ maxD) ?_ fuel j best hj h
  intro b d h2 hle hpow hb
  rw [step_def]
  split
  · exact ⟨hpow, Nat.le_trans (by norm_num) h2, hle⟩
  · exact hb

/-! ### The final gcd reduction -/

/-- Dividing numerator and denominator by their gcd does not change the
represented rational value. -/
theorem reduced_val (bn bd : ℕ) (hbd : 1 ≤ bd) :
    ((bn / jsGcd bn bd : ℕ) : ℚ) / ((bd / jsGcd bn bd : ℕ) : ℚ)
      = (bn : ℚ) / (bd : ℚ) := by
  rw [jsGcd_eq]
  have h1 : Nat.gcd bd bn ∣ bn := Nat.gcd_dvd_right bd bn
  have h2 : Nat.gcd bd bn ∣ bd := Nat.gcd_dvd_left bd bn
  have hG : 0 < Nat.gcd bd bn := Nat.gcd_pos_of_pos_left bn (by omega)
  have hGq : ((Nat.gcd bd bn : ℕ) : ℚ) ≠ 0 := by exact_mod_cast hG.ne'
  have hbdq : ((bd : ℕ) : ℚ) ≠ 0 := by exact_mod_cast (by omega : bd ≠ 0)
  rw [Nat.cast_div h1 hGq, Nat.cast_div h2 hGq]
  field_simp

/-- After the gcd reduction the numerator and denominator are coprime. -/
theorem reduced_coprime (bn bd : ℕ) (hbd : 1 ≤ bd) :
    Nat.gcd (bn / jsGcd bn bd) (bd / jsGcd bn bd) = 1 := by
  rw [jsGcd_eq, Nat.gcd_comm bd bn]
  exact Nat.coprime_div_gcd_div_gcd (Nat.gcd_pos_of_pos_right bn (by omega))

/-- The reduced denominator is positive. -/
theorem reduced_den_pos (bn bd : ℕ) (hbd : 1 ≤ bd) :
    1 ≤ bd / jsGcd bn bd := by
  rw [jsGcd_eq]
  have h2 : Nat.gcd bd bn ∣ bd := Nat.gcd_dvd_left bd bn
  have hG : 0 < Nat.gcd bd bn := Nat.gcd_pos_of_pos_left bn (by omega)
  exact Nat.div_pos (Nat.le_of_dvd (by omega) h2) hG

/-- The reduced denominator divides the unreduced one. -/
theorem reduced_den_dvd (bn bd : ℕ) : bd / jsGcd bn bd ∣ bd := by
  rw [jsGcd_eq]
  exact Nat.div_dvd_of_dvd (Nat.gcd_dvd_left bd bn)

/-- If the reduced numerator is `0`, the reduced denominator is `1`: either
the unreduced numerator was `0` (so the gcd is the denominator itself), or
the reduced numerator would be positive. -/
theorem reduced_num_zero (bn bd : ℕ) (hbd : 1 ≤ bd)
    (h : bn / jsGcd bn bd = 0) : bd / jsGcd bn bd = 1 := by
  by_cases hbn : bn = 0
  · subst hbn
    rw [jsGcd_eq, Nat.gcd_zero_right]
    exact Nat.div_self (by omega)
  · exfalso
    rw [jsGcd_eq] at h
    have h1 : Nat.gcd bd bn ∣ bn := Nat.gcd_dvd_right bd bn
    have hG : 0 < Nat.gcd bd bn := Nat.gcd_pos_of_pos_left bn (by omega)
    have : 0 < bn / Nat.gcd bd bn :=
      Nat.div_pos (Nat.le_of_dvd (Nat.pos_of_ne_zero hbn) h1) hG
    omega

/-! ### Path unfolding lemmas -/

/-- The whole-number fast path: when the fractional part is within `1e-4`
of zero, the function returns immediately. -/
theorem decimalToFraction_fast (value : ℚ) (maxD : ℕ)
    (h : |value - ((⌊value⌋ : ℤ) : ℚ)| < 1/10000) :
    decimalToFraction value maxD =
      { whole := ⌊value⌋, numerator := 0, denominator := 1, decimal := value,
        error := 0 } := by
  simp only [decimalToFraction]
  rw [if_pos h]

/-- The search path: when the fractional part escapes the fast-path
threshold, the result is the gcd-reduced best candidate of the doubling
search seeded at `1/1`. -/
theorem decimalToFraction_search (value : ℚ) (maxD : ℕ)
    (h : ¬ |value - ((⌊value⌋ : ℤ) : ℚ)| < 1/10000) :
    decimalToFraction value maxD =
      { whole := ⌊value⌋
        numerator :=
          (searchFrom (value - ((⌊value⌋ : ℤ) : ℚ)) maxD maxD 2
              ⟨1, 1, |(value - ((⌊value⌋ : ℤ) : ℚ)) - 1 / 1|⟩).num /
            jsGcd
              (searchFrom (value - ((⌊value⌋ : ℤ) : ℚ)) maxD maxD 2
                  ⟨1, 1, |(value - ((⌊value⌋ : ℤ) : ℚ)) - 1 / 1|⟩).num
              (searchFrom (value - ((⌊value⌋ : ℤ) : ℚ)) maxD maxD 2
                  ⟨1, 1, |(value - ((⌊value⌋ : ℤ) : ℚ)) - 1 / 1|⟩).den
        denominator :=
          (searchFrom (value - ((⌊value⌋ : ℤ) : ℚ)) maxD maxD 2
              ⟨1, 1, |(value - ((⌊value⌋ : ℤ) : ℚ)) - 1 / 1|⟩).den /
            jsGcd
              (searchFrom (value - ((⌊value⌋ : ℤ) : ℚ)) maxD maxD 2
                  ⟨1, 1, |(value - ((⌊value⌋ : ℤ) : ℚ)) - 1 / 1|⟩).num
              (searchFrom (value - ((⌊value⌋ : ℤ) : ℚ)) maxD maxD 2
                  ⟨1, 1, |(value - ((⌊value⌋ : ℤ) : ℚ)) - 1 / 1|⟩).den
        decimal := value
        error :=
          (searchFrom (value - ((⌊value⌋ : ℤ) : ℚ)) maxD maxD 2
              ⟨1, 1, |(value - ((⌊value⌋ : ℤ) : ℚ)) - 1 / 1|⟩).minError } := by
  simp only [decimalToFraction]
  rw [if_neg h]

/-- Variant of `decimalToFraction_search` for evaluation at concrete inputs:
the floor `w` and fractional part `fp` are supplied as precomputed values. -/
theorem decimalToFraction_eval (value : ℚ) (maxD : ℕ) (w : ℤ) (fp : ℚ)
    (hw : ⌊value⌋ = w) (hfp : value - (w : ℚ) = fp)
    (h : ¬ |fp| < 1/10000) (best : Best)
    (hsearch : searchFrom fp maxD maxD 2 ⟨1, 1, |fp - 1 / 1|⟩ = best) :
    decimalToFraction value maxD =
      { whole := w
        numerator := best.num / jsGcd best.num best.den
        denominator := best.den / jsGcd best.num best.den
        decimal := value
        error := best.minError } := by
  subst hw
  rw [decimalToFraction_search value maxD (by rw [hfp]; exact h)]
  rw [hfp, hsearch]

/-- The search at `maxDenominator = 1` makes no iterations: `2 > 1`. -/
theorem searchFrom_one (fp : ℚ) (best : Best) :
    searchFrom fp 1 1 2 best = best := by
  simp [searchFrom]

/-- The search at `maxDenominator = 16` unrolls to four loop iterations. -/
theorem searchFrom_sixteen (fp : ℚ) (best : Best) :
    searchFrom fp 16 16 2 best =
      step fp (step fp (step fp (step fp best 2) 4) 8) 16 := by
  simp [searchFrom]

/-- The search at `maxDenominator = 32` unrolls to five loop iterations. -/
theorem searchFrom_thirtytwo (fp : ℚ) (best : Best) :
    searchFrom fp 32 32 2 best =
      step fp (step fp (step fp (step fp (step fp best 2) 4) 8) 16) 32 := by
  simp [searchFrom]

/-- The search at `maxDenominator = 64` unrolls to six loop iterations. -/
theorem searchFrom_sixtyfour (fp : ℚ) (best : Best) :
    searchFrom fp 64 64 2 best =
      step fp (step fp (step fp (step fp (step fp (step fp best 2) 4) 8) 16) 32) 64 := by
  simp [searchFrom]

/-- Evaluation rule for an accepted candidate: when the rounded numerator is
`n`, its error is `err`, and `err` beats the running minimum by more than the
`1e-5` margin, the loop body replaces the best triple. -/
theorem step_accept (fp : ℚ) (bn bd : ℕ) (me : ℚ) (d n : ℕ) (err : ℚ)
    (hn : jsRound (fp * (d : ℚ)) = (n : ℤ))
    (herr : |fp - (n : ℚ) / (d : ℚ)| = err)
    (hlt : err < me - 1/100000) :
    step fp ⟨bn, bd, me⟩ d = ⟨n, d, err⟩ := by
  simp only [step, hn, Int.toNat_natCast, herr]
  exact if_pos hlt

/-- Evaluation rule for a rejected candidate: when the candidate's error does
not beat the running minimum by more than the `1e-5` margin, the loop body
keeps the current best triple. -/
theorem step_keep (fp : ℚ) (bn bd : ℕ) (me : ℚ) (d n : ℕ) (err : ℚ)
    (hn : jsRound (fp * (d : ℚ)) = (n : ℤ))
    (herr : |fp - (n : ℚ) / (d : ℚ)| = err)
    (hge : ¬ err < me - 1/100000) :
    step fp ⟨bn, bd, me⟩ d = ⟨bn, bd, me⟩ := by
  simp only [step, hn, Int.toNat_natCast, herr]
  exact if_neg hge

/-! ### Concrete evaluations -/

theorem eval_5375 : decimalToFraction (43/8) 16 = ⟨5, 3, 8, 43/8, 0⟩ := by
  have hsearch : searchFrom (3/8 : ℚ) 16 16 2 ⟨1, 1, |(3:ℚ)/8 - 1/1|⟩ = ⟨3, 8, 0⟩ := by
    rw [searchFrom_sixteen, show |(3:ℚ)/8 - 1/1| = 5/8 by norm_num,
      step_accept (3/8) 1 1 (5/8) 2 1 (1/8) (by norm_num [jsRound]) (by norm_num)
        (by norm_num),
      step_keep (3/8) 1 2 (1/8) 4 2 (1/8) (by norm_num [jsRound]) (by norm_num)
        (by norm_num),
      step_accept (3/8) 1 2 (1/8) 8 3 0 (by norm_num [jsRound]) (by norm_num)
        (by norm_num),
      step_keep (3/8) 3 8 0 16 6 0 (by norm_num [jsRound]) (by norm_num)
        (by norm_num)]
  rw [decimalToFraction_eval (43/8) 16 5 (3/8) (by norm_num) (by norm_num)
    (by rw [show |(3:ℚ)/8| = 3/8 by norm_num]; norm_num) ⟨3, 8, 0⟩ hsearch]
  norm_num [jsGcd_eq]

theorem eval_third : decimalToFraction (1/3) 64 = ⟨0, 21, 64, 1/3, 1/192⟩ := by
  have hsearch : searchFrom (1/3 : ℚ) 64 64 2 ⟨1, 1, |(1:ℚ)/3 - 1/1|⟩
      = ⟨21, 64, 1/192⟩ := by
    rw [searchFrom_sixtyfour, show |(1:ℚ)/3 - 1/1| = 2/3 by norm_num,
      step_accept (1/3) 1 1 (2/3) 2 1 (1/6) (by norm_num [jsRound]) (by norm_num)
        (by norm_num),
      step_accept (1/3) 1 2 (1/6) 4 1 (1/12) (by norm_num [jsRound]) (by norm_num)
        (by norm_num),
      step_accept (1/3) 1 4 (1/12) 8 3 (1/24) (by norm_num [jsRound]) (by norm_num)
        (by norm_num),
      step_accept (1/3) 3 8 (1/24) 16 5 (1/48) (by norm_num [jsRound]) (by norm_num)
        (by norm_num),
      step_accept (1/3) 5 16 (1/48) 32 11 (1/96) (by norm_num [jsRound]) (by norm_num)
        (by norm_num),
      step_accept (1/3) 11 32 (1/96) 64 21 (1/192) (by norm_num [jsRound]) (by norm_num)
        (by norm_num)]
  rw [decimalToFraction_eval (1/3) 64 0 (1/3) (by norm_num) (by norm_num)
    (by rw [show |(1:ℚ)/3| = 1/3 by norm_num]; norm_num) ⟨21, 64, 1/192⟩ hsearch]
  norm_num [jsGcd_eq]

theorem eval_3tenths : decimalToFraction (3/10) 16 = ⟨0, 5, 16, 3/10, 1/80⟩ := by
  have hsearch : searchFrom (3/10 : ℚ) 16 16 2 ⟨1, 1, |(3:ℚ)/10 - 1/1|⟩
      = ⟨5, 16, 1/80⟩ := by
    rw [searchFrom_sixteen, show |(3:ℚ)/10 - 1/1| = 7/10 by norm_num,
      step_accept (3/10) 1 1 (7/10) 2 1 (1/5) (by norm_num [jsRound]) (by norm_num)
        (by norm_num),
      step_accept (3/10) 1 2 (1/5) 4 1 (1/20) (by norm_num [jsRound]) (by norm_num)
        (by norm_num),
      step_keep (3/10) 1 4 (1/20) 8 2 (1/20) (by norm_num [jsRound]) (by norm_num)
        (by norm_num),
      step_accept (3/10) 1 4 (1/20) 16 5 (1/80) (by norm_num [jsRound]) (by norm_num)
        (by norm_num)]
  rw [decimalToFraction_eval (3/10) 16 0 (3/10) (by norm_num) (by norm_num)
    (by rw [show |(3:ℚ)/10| = 3/10 by norm_num]; norm_num) ⟨5, 16, 1/80⟩ hsearch]
  norm_num [jsGcd_eq]

theorem eval_twelve : decimalToFraction 12 32 = ⟨12, 0, 1, 12, 0⟩ := by
  have h : |(12:ℚ) - ((⌊(12:ℚ)⌋ : ℤ) : ℚ)| < 1/10000 := by norm_num
  rw [decimalToFraction_fast 12 32 h]
  norm_num

theorem eval_just_above : decimalToFraction (500001/100000) 16
    = ⟨5, 0, 1, 500001/100000, 0⟩ := by
  have h : |(500001:ℚ)/100000 - ((⌊(500001:ℚ)/100000⌋ : ℤ) : ℚ)| < 1/10000 := by
    rw [show ⌊(500001:ℚ)/100000⌋ = 5 by norm_num [Int.floor_eq_iff]]
    rw [show |(500001:ℚ)/100000 - ((5:ℤ):ℚ)| = 1/100000 by norm_num]
    norm_num
  rw [decimalToFraction_fast (500001/100000) 16 h]
  norm_num [Int.floor_eq_iff]

theorem eval_just_below : decimalToFraction (499999/100000) 16
    = ⟨4, 1, 1, 499999/100000, 1/100000⟩ := by
  have hsearch : searchFrom (99999/100000 : ℚ) 16 16 2
      ⟨1, 1, |(99999:ℚ)/100000 - 1/1|⟩ = ⟨1, 1, 1/100000⟩ := by
    rw [searchFrom_sixteen, show |(99999:ℚ)/100000 - 1/1| = 1/100000 by norm_num,
      step_keep (99999/100000) 1 1 (1/100000) 2 2 (1/100000) (by norm_num [jsRound])
        (by norm_num) (by norm_num),
      step_keep (99999/100000) 1 1 (1/100000) 4 4 (1/100000) (by norm_num [jsRound])
        (by norm_num) (by norm_num),
      step_keep (99999/100000) 1 1 (1/100000) 8 8 (1/100000) (by norm_num [jsRound])
        (by norm_num) (by norm_num),
      step_keep (99999/100000) 1 1 (1/100000) 16 16 (1/100000) (by norm_num [jsRound])
        (by norm_num) (by norm_num)]
  rw [decimalToFraction_eval (499999/100000) 16 4 (99999/100000)
    (by norm_num [Int.floor_eq_iff]) (by norm_num)
    (by rw [show |(99999:ℚ)/100000| = 99999/100000 by norm_num]; norm_num)
    ⟨1, 1, 1/100000⟩ hsearch]
  norm_num [jsGcd_eq]

theorem eval_half_16 : decimalToFraction (1/2) 16 = ⟨0, 1, 2, 1/2, 0⟩ := by
  have hsearch : searchFrom (1/2 : ℚ) 16 16 2 ⟨1, 1, |(1:ℚ)/2 - 1/1|⟩
      = ⟨1, 2, 0⟩ := by
    rw [searchFrom_sixteen, show |(1:ℚ)/2 - 1/1| = 1/2 by norm_num,
      step_accept (1/2) 1 1 (1/2) 2 1 0 (by norm_num [jsRound]) (by norm_num)
        (by norm_num),
      step_keep (1/2) 1 2 0 4 2 0 (by norm_num [jsRound]) (by norm_num) (by norm_num),
      step_keep (1/2) 1 2 0 8 4 0 (by norm_num [jsRound]) (by norm_num) (by norm_num),
      step_keep (1/2) 1 2 0 16 8 0 (by norm_num [jsRound]) (by norm_num) (by norm_num)]
  rw [decimalToFraction_eval (1/2) 16 0 (1/2) (by norm_num) (by norm_num)
    (by rw [show |(1:ℚ)/2| = 1/2 by norm_num]; norm_num) ⟨1, 2, 0⟩ hsearch]
  norm_num [jsGcd_eq]

theorem eval_half_32 : decimalToFraction (1/2) 32 = ⟨0, 1, 2, 1/2, 0⟩ := by
  have hsearch : searchFrom (1/2 : ℚ) 32 32 2 ⟨1, 1, |(1:ℚ)/2 - 1/1|⟩
      = ⟨1, 2, 0⟩ := by
    rw [searchFrom_thirtytwo, show |(1:ℚ)/2 - 1/1| = 1/2 by norm_num,
      step_accept (1/2) 1 1 (1/2) 2 1 0 (by norm_num [jsRound]) (by norm_num)
        (by norm_num),
      step_keep (1/2) 1 2 0 4 2 0 (by norm_num [jsRound]) (by norm_num) (by norm_num),
      step_keep (1/2) 1 2 0 8 4 0 (by norm_num [jsRound]) (by norm_num) (by norm_num),
      step_keep (1/2) 1 2 0 16 8 0 (by norm_num [jsRound]) (by norm_num) (by norm_num),
      step_keep (1/2) 1 2 0 32 16 0 (by norm_num [jsRound]) (by norm_num) (by norm_num)]
  rw [decimalToFraction_eval (1/2) 32 0 (1/2) (by norm_num) (by norm_num)
    (by rw [show |(1:ℚ)/2| = 1/2 by norm_num]; norm_num) ⟨1, 2, 0⟩ hsearch]
  norm_num [jsGcd_eq]

theorem eval_half_64 : decimalToFraction (1/2) 64 = ⟨0, 1, 2, 1/2, 0⟩ := by
  have hsearch : searchFrom (1/2 : ℚ) 64 64 2 ⟨1, 1, |(1:ℚ)/2 - 1/1|⟩
      = ⟨1, 2, 0⟩ := by
    rw [searchFrom_sixtyfour, show |(1:ℚ)/2 - 1/1| = 1/2 by norm_num,
      step_accept (1/2) 1 1 (1/2) 2 1 0 (by norm_num [jsRound]) (by norm_num)
        (by norm_num),
      step_keep (1/2) 1 2 0 4 2 0 (by norm_num [jsRound]) (by norm_num) (by norm_num),
      step_keep (1/2) 1 2 0 8 4 0 (by norm_num [jsRound]) (by norm_num) (by norm_num),
      step_keep (1/2) 1 2 0 16 8 0 (by norm_num [jsRound]) (by norm_num) (by norm_num),
      step_keep (1/2) 1 2 0 32 16 0 (by norm_num [jsRound]) (by norm_num) (by norm_num),
      step_keep (1/2) 1 2 0 64 32 0 (by norm_num [jsRound]) (by norm_num) (by norm_num)]
  rw [decimalToFraction_eval (1/2) 64 0 (1/2) (by norm_num) (by norm_num)
    (by rw [show |(1:ℚ)/2| = 1/2 by norm_num]; norm_num) ⟨1, 2, 0⟩ hsearch]
  norm_num [jsGcd_eq]

theorem eval_quarter_16 : decimalToFraction (1/4) 16 = ⟨0, 1, 4, 1/4, 0⟩ := by
  have hsearch : searchFrom (1/4 : ℚ) 16 16 2 ⟨1, 1, |(1:ℚ)/4 - 1/1|⟩
      = ⟨1, 4, 0⟩ := by
    rw [searchFrom_sixteen, show |(1:ℚ)/4 - 1/1| = 3/4 by norm_num,
      step_accept (1/4) 1 1 (3/4) 2 1 (1/4) (by norm_num [jsRound]) (by norm_num)
        (by norm_num),
      step_accept (1/4) 1 2 (1/4) 4 1 0 (by norm_num [jsRound]) (by norm_num)
        (by norm_num),
      step_keep (1/4) 1 4 0 8 2 0 (by norm_num [jsRound]) (by norm_num) (by norm_num),
      step_keep (1/4) 1 4 0 16 4 0 (by norm_num [jsRound]) (by norm_num) (by norm_num)]
  rw [decimalToFraction_eval (1/4) 16 0 (1/4) (by norm_num) (by norm_num)
    (by rw [show |(1:ℚ)/4| = 1/4 by norm_num]; norm_num) ⟨1, 4, 0⟩ hsearch]
  norm_num [jsGcd_eq]

theorem eval_quarter_32 : decimalToFraction (1/4) 32 = ⟨0, 1, 4, 1/4, 0⟩ := by
  have hsearch : searchFrom (1/4 : ℚ) 32 32 2 ⟨1, 1, |(1:ℚ)/4 - 1/1|⟩
      = ⟨1, 4, 0⟩ := by
    rw [searchFrom_thirtytwo, show |(1:ℚ)/4 - 1/1| = 3/4 by norm_num,
      step_accept (1/4) 1 1 (3/4) 2 1 (1/4) (by norm_num [jsRound]) (by norm_num)
        (by norm_num),
      step_accept (1/4) 1 2 (1/4) 4 1 0 (by norm_num [jsRound]) (by norm_num)
        (by norm_num),
      step_keep (1/4) 1 4 0 8 2 0 (by norm_num [jsRound]) (by norm_num) (by norm_num),
      step_keep (1/4) 1 4 0 16 4 0 (by norm_num [jsRound]) (by norm_num) (by norm_num),
      step_keep (1/4) 1 4 0 32 8 0 (by norm_num [jsRound]) (by norm_num) (by norm_num)]
  rw [decimalToFraction_eval (1/4) 32 0 (1/4) (by norm_num) (by norm_num)
    (by rw [show |(1:ℚ)/4| = 1/4 by norm_num]; norm_num) ⟨1, 4, 0⟩ hsearch]
  norm_num [jsGcd_eq]

theorem eval_quarter_64 : decimalToFraction (1/4) 64 = ⟨0, 1, 4, 1/4, 0⟩ := by
  have hsearch : searchFrom (1/4 : ℚ) 64 64 2 ⟨1, 1, |(1:ℚ)/4 - 1/1|⟩
      = ⟨1, 4, 0⟩ := by
    rw [searchFrom_sixtyfour, show |(1:ℚ)/4 - 1/1| = 3/4 by norm_num,
      step_accept (1/4) 1 1 (3/4) 2 1 (1/4) (by norm_num [jsRound]) (by norm_num)
        (by norm_num),
      step_accept (1/4) 1 2 (1/4) 4 1 0 (by norm_num [jsRound]) (by norm_num)
        (by norm_num),
      step_keep (1/4) 1 4 0 8 2 0 (by norm_num [jsRound]) (by norm_num) (by norm_num),
      step_keep (1/4) 1 4 0 16 4 0 (by norm_num [jsRound]) (by norm_num) (by norm_num),
      step_keep (1/4) 1 4 0 32 8 0 (by norm_num [jsRound]) (by norm_num) (by norm_num),
      step_keep (1/4) 1 4 0 64 16 0 (by norm_num [jsRound]) (by norm_num) (by norm_num)]
  rw [decimalToFraction_eval (1/4) 64 0 (1/4) (by norm_num) (by norm_num)
    (by rw [show |(1:ℚ)/4| = 1/4 by norm_num]; norm_num) ⟨1, 4, 0⟩ hsearch]
  norm_num [jsGcd_eq]

theorem eval_eighth_16 : decimalToFraction (1/8) 16 = ⟨0, 1, 8, 1/8, 0⟩ := by
  have hsearch : searchFrom (1/8 : ℚ) 16 16 2 ⟨1, 1, |(1:ℚ)/8 - 1/1|⟩
      = ⟨1, 8, 0⟩ := by
    rw [searchFrom_sixteen, show |(1:ℚ)/8 - 1/1| = 7/8 by norm_num,
      step_accept (1/8) 1 1 (7/8) 2 0 (1/8) (by norm_num [jsRound]) (by norm_num)
        (by norm_num),
      step_keep (1/8) 0 2 (1/8) 4 1 (1/8) (by norm_num [jsRound]) (by norm_num)
        (by norm_num),
      step_accept (1/8) 0 2 (1/8) 8 1 0 (by norm_num [jsRound]) (by norm_num)
        (by norm_num),
      step_keep (1/8) 1 8 0 16 2 0 (by norm_num [jsRound]) (by norm_num) (by norm_num)]
  rw [decimalToFraction_eval (1/8) 16 0 (1/8) (by norm_num) (by norm_num)
    (by rw [show |(1:ℚ)/8| = 1/8 by norm_num]; norm_num) ⟨1, 8, 0⟩ hsearch]
  norm_num [jsGcd_eq]

theorem eval_eighth_32 : decimalToFraction (1/8) 32 = ⟨0, 1, 8, 1/8, 0⟩ := by
  have hsearch : searchFrom (1/8 : ℚ) 32 32 2 ⟨1, 1, |(1:ℚ)/8 - 1/1|⟩
      = ⟨1, 8, 0⟩ := by
    rw [searchFrom_thirtytwo, show |(1:ℚ)/8 - 1/1| = 7/8 by norm_num,
      step_accept (1/8) 1 1 (7/8) 2 0 (1/8) (by norm_num [jsRound]) (by norm_num)
        (by norm_num),
      step_keep (1/8) 0 2 (1/8) 4 1 (1/8) (by norm_num [jsRound]) (by norm_num)
        (by norm_num),
      step_accept (1/8) 0 2 (1/8) 8 1 0 (by norm_num [jsRound]) (by norm_num)
        (by norm_num),
      step_keep (1/8) 1 8 0 16 2 0 (by norm_num [jsRound]) (by norm_num) (by norm_num),
      step_keep (1/8) 1 8 0 32 4 0 (by norm_num [jsRound]) (by norm_num) (by norm_num)]
  rw [decimalToFraction_eval (1/8) 32 0 (1/8) (by norm_num) (by norm_num)
    (by rw [show |(1:ℚ)/8| = 1/8 by norm_num]; norm_num) ⟨1, 8, 0⟩ hsearch]
  norm_num [jsGcd_eq]

theorem eval_eighth_64 : decimalToFraction (1/8) 64 = ⟨0, 1, 8, 1/8, 0⟩ := by
  have hsearch : searchFrom (1/8 : ℚ) 64 64 2 ⟨1, 1, |(1:ℚ)/8 - 1/1|⟩
      = ⟨1, 8, 0⟩ := by
    rw [searchFrom_sixtyfour, show |(1:ℚ)/8 - 1/1| = 7/8 by norm_num,
      step_accept (1/8) 1 1 (7/8) 2 0 (1/8) (by norm_num [jsRound]) (by norm_num)
        (by norm_num),
      step_keep (1/8) 0 2 (1/8) 4 1 (1/8) (by norm_num [jsRound]) (by norm_num)
        (by norm_num),
      step_accept (1/8) 0 2 (1/8) 8 1 0 (by norm_num [jsRound]) (by norm_num)
        (by norm_num),
      step_keep (1/8) 1 8 0 16 2 0 (by norm_num [jsRound]) (by norm_num) (by norm_num),
      step_keep (1/8) 1 8 0 32 4 0 (by norm_num [jsRound]) (by norm_num) (by norm_num),
      step_keep (1/8) 1 8 0 64 8 0 (by norm_num [jsRound]) (by norm_num) (by norm_num)]
  rw [decimalToFraction_eval (1/8) 64 0 (1/8) (by norm_num) (by norm_num)
    (by rw [show |(1:ℚ)/8| = 1/8 by norm_num]; norm_num) ⟨1, 8, 0⟩ hsearch]
  norm_num [jsGcd_eq]

theorem eval_sixfifths_one : decimalToFraction (6/5) 1 = ⟨1, 1, 1, 6/5, 4/5⟩ := by
  have hsearch : searchFrom (1/5 : ℚ) 1 1 2 ⟨1, 1, |(1:ℚ)/5 - 1/1|⟩
      = ⟨1, 1, 4/5⟩ := by
    rw [searchFrom_one, show |(1:ℚ)/5 - 1/1| = 4/5 by norm_num]
  rw [decimalToFraction_eval (6/5) 1 1 (1/5) (by norm_num [Int.floor_eq_iff])
    (by norm_num) (by rw [show |(1:ℚ)/5| = 1/5 by norm_num]; norm_num)
    ⟨1, 1, 4/5⟩ hsearch]
  norm_num [jsGcd_eq]

/-! ### The roll-over regime: fractional parts close to 1 -/

/-- When the fractional part exceeds `1 - 1/(2·maxD)`, every candidate
denominator `d ≤ maxD` rounds to `n = d`, whose error `1 - fp` equals the
`1/1` seed's error and is never strictly better, so the search returns the
seed unchanged. -/
theorem rollover_search (fp : ℚ) (maxD : ℕ)
    (hf : 1 - 1/(2*(maxD:ℚ)) < fp) (hf1 : fp < 1) :
    ∀ fuel d, 1 ≤ d → searchFrom fp maxD fuel d ⟨1, 1, 1 - fp⟩ = ⟨1, 1, 1 - fp⟩ := by
  intro fuel
  induction fuel with
  | zero => intro d hd; rfl
  | succ n ih =>
    intro d hd
    rw [searchFrom]
    split
    · next hle =>
      have hdq : (0:ℚ) < d := by exact_mod_cast hd
      have hdm : (d:ℚ) ≤ maxD := by exact_mod_cast hle
      have hmq : (0:ℚ) < maxD := lt_of_lt_of_le hdq hdm
      have hlow : (d:ℚ) - 1/2 < fp * d := by
        have h1 : (d:ℚ)/(2*maxD) ≤ 1/2 := by
          rw [div_le_div_iff₀ (by positivity) (by norm_num)]
          linarith
        have h2 : (1 - 1/(2*(maxD:ℚ))) * d < fp * d := mul_lt_mul_of_pos_right hf hdq
        have h3 : (1 - 1/(2*(maxD:ℚ))) * d = d - d/(2*maxD) := by ring
        linarith
      have hhigh : fp * d < d := by
        calc fp * d < 1 * d := mul_lt_mul_of_pos_right hf1 hdq
        _ = d := one_mul _
      have hround : jsRound (fp * d) = ((d:ℕ):ℤ) := by
        unfold jsRound
        rw [Int.floor_eq_iff]
        constructor
        · push_cast; linarith
        · push_cast; linarith
      have hn : candNum fp d = d := by
        unfold candNum; rw [hround]; exact Int.toNat_natCast d
      have herr : candErr fp d = 1 - fp := by
        unfold candErr
        rw [hn, div_self (by positivity : ((d:ℕ):ℚ) ≠ 0), abs_sub_comm,
          abs_of_nonneg (by linarith)]
      have hstep : step fp ⟨1, 1, 1 - fp⟩ d = ⟨1, 1, 1 - fp⟩ := by
        rw [step_def, herr]
        exact if_neg (show ¬ (1 - fp < 1 - fp - 1/100000) by linarith)
      rw [hstep]
      exact ih (2*d) (by omega)
    · next => rfl

/-- The error field is never negative: it is `0` on the fast path and an
absolute value throughout the search. -/
theorem decimalToFraction_error_nonneg (value : ℚ) (maxD : ℕ) :
    0 ≤ (decimalToFraction value maxD).error := by
  by_cases h : |value - ((⌊value⌋ : ℤ) : ℚ)| < 1/10000
  · rw [decimalToFraction_fast value maxD h]
  · rw [decimalToFraction_search value maxD h]
    have hrep := searchFrom_repOk (value - ((⌊value⌋ : ℤ) : ℚ)) maxD maxD 1
      ⟨1, 1, |(value - ((⌊value⌋ : ℤ) : ℚ)) - 1 / 1|⟩ le_rfl (by norm_num)
    rw [pow_one] at hrep
    simp only
    rw [hrep]
    exact abs_nonneg _

/-- The best denominator stays positive through the search, regardless of
`maxD`. -/
theorem searchFrom_den_pos (fp : ℚ) (maxD : ℕ) (fuel j : ℕ) (best : Best)
    (hj : 1 ≤ j) (h : 1 ≤ best.den) :
    1 ≤ (searchFrom fp maxD fuel (2^j) best).den := by
  refine searchFrom_inv fp maxD (fun b => 1 ≤ b.den) ?_ fuel j best hj h
  intro b d h2 hle hpow hb
  rw [step_def]
  split
  · show 1 ≤ d
    omega
  · exact hb

/-- The error field equals the unsigned distance between the fractional part
and the reduced fraction the result carries (search path). -/
theorem decimalToFraction_error_eq_abs (value : ℚ) (maxD : ℕ)
    (h : ¬ |value - ((⌊value⌋ : ℤ) : ℚ)| < 1/10000) :
    (decimalToFraction value maxD).error =
      |(value - ((⌊value⌋ : ℤ) : ℚ)) -
        ((decimalToFraction value maxD).numerator : ℚ)
          / ((decimalToFraction value maxD).denominator : ℚ)| := by
  rw [decimalToFraction_search value maxD h]
  have hrep := searchFrom_repOk (value - ((⌊value⌋ : ℤ) : ℚ)) maxD maxD 1
    ⟨1, 1, |(value - ((⌊value⌋ : ℤ) : ℚ)) - 1 / 1|⟩ le_rfl (by norm_num)
  have hpos := searchFrom_den_pos (value - ((⌊value⌋ : ℤ) : ℚ)) maxD maxD 1
    ⟨1, 1, |(value - ((⌊value⌋ : ℤ) : ℚ)) - 1 / 1|⟩ le_rfl le_rfl
  rw [pow_one] at hrep hpos
  simp only
  rw [reduced_val _ _ hpos]
  exact hrep

/-- C4 (amended): the round-trip bound holds for every `x ≥ 0` and every
power-of-two `maxDenominator ≥ 2` with tolerance `ε = 1e-4`: the winning
error is within `1e-5` of the candidate tried at `d = maxD`, which is within
`1/(2·maxD)` of the fractional part, and the fast path is within `1e-4`.
(At the contract-permitted `maxDenominator = 1` the bound fails, see the
counterexample.) -/
theorem decimalToFraction_bound (value : ℚ) (m : ℕ) (hv : 0 ≤ value) (hm : 1 ≤ m) :
    |value - (((decimalToFraction value (2^m)).whole : ℚ)
        + ((decimalToFraction value (2^m)).numerator : ℚ)
          / ((decimalToFraction value (2^m)).denominator : ℚ))|
      ≤ 1 / (2 * ((2^m : ℕ) : ℚ)) + 1/10000 := by
  have hfp0 : 0 ≤ value - ((⌊value⌋ : ℤ) : ℚ) := sub_nonneg.mpr (Int.floor_le value)
  have hqpos : (0:ℚ) < ((2^m : ℕ) : ℚ) := by positivity
  have hbpos : (0:ℚ) < 1 / (2 * ((2^m : ℕ) : ℚ)) := by positivity
  by_cases h : |value - ((⌊value⌋ : ℤ) : ℚ)| < 1/10000
  · rw [decimalToFraction_fast value (2^m) h]
    simp only
    have hz : ((0:ℕ):ℚ) / ((1:ℕ):ℚ) = 0 := by norm_num
    rw [hz, add_zero]
    linarith [h]
  · rw [decimalToFraction_search value (2^m) h]
    simp only
    have hrep := searchFrom_repOk (value - ((⌊value⌋ : ℤ) : ℚ)) (2^m) (2^m) 1
      ⟨1, 1, |(value - ((⌊value⌋ : ℤ) : ℚ)) - 1 / 1|⟩ le_rfl (by norm_num)
    have hpos := searchFrom_den_pos (value - ((⌊value⌋ : ℤ) : ℚ)) (2^m) (2^m) 1
      ⟨1, 1, |(value - ((⌊value⌋ : ℤ) : ℚ)) - 1 / 1|⟩ le_rfl le_rfl
    rw [pow_one] at hrep hpos
    have hprocessed := searchFrom_le_processed (value - ((⌊value⌋ : ℤ) : ℚ)) (2^m)
      (2^m) 2 ⟨1, 1, |(value - ((⌊value⌋ : ℤ) : ℚ)) - 1 / 1|⟩ (m - 1)
      (by have := Nat.lt_two_pow m; omega)
      (by
        have h2 : 2 * 2^(m-1) = 2^m := by
          have : m - 1 + 1 = m := by omega
          calc 2 * 2^(m-1) = 2^(m-1+1) := (pow_succ' 2 (m-1)).symm
          _ = 2^m := by rw [this]
        rw [h2])
    have h2 : 2 * 2^(m-1) = 2^m := by
      have : m - 1 + 1 = m := by omega
      calc 2 * 2^(m-1) = 2^(m-1+1) := (pow_succ' 2 (m-1)).symm
      _ = 2^m := by rw [this]
    rw [h2] at hprocessed
    have hcand := candErr_le_half (value - ((⌊value⌋ : ℤ) : ℚ)) (2^m) hfp0
      Nat.one_le_two_pow
    have hval : value - (((⌊value⌋ : ℤ) : ℚ)
        + ((searchFrom (value - ((⌊value⌋ : ℤ) : ℚ)) (2^m) (2^m) 2
            ⟨1, 1, |(value - ((⌊value⌋ : ℤ) : ℚ)) - 1 / 1|⟩).num : ℚ)
          / ((searchFrom (value - ((⌊value⌋ : ℤ) : ℚ)) (2^m) (2^m) 2
            ⟨1, 1, |(value - ((⌊value⌋ : ℤ) : ℚ)) - 1 / 1|⟩).den : ℚ))
        = (value - ((⌊value⌋ : ℤ) : ℚ))
          - ((searchFrom (value - ((⌊value⌋ : ℤ) : ℚ)) (2^m) (2^m) 2
            ⟨1, 1, |(value - ((⌊value⌋ : ℤ) : ℚ)) - 1 / 1|⟩).num : ℚ)
          / ((searchFrom (value - ((⌊value⌋ : ℤ) : ℚ)) (2^m) (2^m) 2
            ⟨1, 1, |(value - ((⌊value⌋ : ℤ) : ℚ)) - 1 / 1|⟩).den : ℚ) := by
      ring
    rw [reduced_val _ _ hpos, hval, ← hrep]
    calc (searchFrom (value - ((⌊value⌋ : ℤ) : ℚ)) (2^m) (2^m) 2
          ⟨1, 1, |(value - ((⌊value⌋ : ℤ) : ℚ)) - 1 / 1|⟩).minError
        ≤ candErr (value - ((⌊value⌋ : ℤ) : ℚ)) (2^m) + 1/100000 := hprocessed
      _ ≤ 1 / (2 * ((2^m : ℕ) : ℚ)) + 1/100000 := by linarith
      _ ≤ 1 / (2 * ((2^m : ℕ) : ℚ)) + 1/10000 := by linarith

/-- C3 (amended): in every result the denominator is a power of two with
`1 ≤ denominator ≤ maxDenominator`, and `numerator = 0` forces
`denominator = 1`; the converse implication fails (see the counterexample:
the roll-over result is `1/1`). -/
theorem decimalToFraction_den_invariant (value : ℚ) (maxD : ℕ) (hmax : 1 ≤ maxD) :
    (∃ k, (decimalToFraction value maxD).denominator = 2^k) ∧
    1 ≤ (decimalToFraction value maxD).denominator ∧
    (decimalToFraction value maxD).denominator ≤ maxD ∧
    ((decimalToFraction value maxD).numerator = 0 →
      (decimalToFraction value maxD).denominator = 1) := by
  by_cases h : |value - ((⌊value⌋ : ℤ) : ℚ)| < 1/10000
  · rw [decimalToFraction_fast value maxD h]
    exact ⟨⟨0, rfl⟩, le_rfl, hmax, fun _ => rfl⟩
  · rw [decimalToFraction_search value maxD h]
    have hden := searchFrom_denOk (value - ((⌊value⌋ : ℤ) : ℚ)) maxD maxD 1
      ⟨1, 1, |(value - ((⌊value⌋ : ℤ) : ℚ)) - 1 / 1|⟩ le_rfl ⟨⟨0, rfl⟩, le_rfl, hmax⟩
    rw [pow_one] at hden
    obtain ⟨⟨k, hk⟩, hpos, hle⟩ := hden
    simp only
    refine ⟨?_, ?_, ?_, ?_⟩
    · have hdvd := reduced_den_dvd
        (searchFrom (value - ((⌊value⌋ : ℤ) : ℚ)) maxD maxD 2
          ⟨1, 1, |(value - ((⌊value⌋ : ℤ) : ℚ)) - 1 / 1|⟩).num
        (searchFrom (value - ((⌊value⌋ : ℤ) : ℚ)) maxD maxD 2
          ⟨1, 1, |(value - ((⌊value⌋ : ℤ) : ℚ)) - 1 / 1|⟩).den
      have hdvd2 : (searchFrom (value - ((⌊value⌋ : ℤ) : ℚ)) maxD maxD 2
          ⟨1, 1, |(value - ((⌊value⌋ : ℤ) : ℚ)) - 1 / 1|⟩).den /
            jsGcd
              (searchFrom (value - ((⌊value⌋ : ℤ) : ℚ)) maxD maxD 2
                ⟨1, 1, |(value - ((⌊value⌋ : ℤ) : ℚ)) - 1 / 1|⟩).num
              (searchFrom (value - ((⌊value⌋ : ℤ) : ℚ)) maxD maxD 2
                ⟨1, 1, |(value - ((⌊value⌋ : ℤ) : ℚ)) - 1 / 1|⟩).den ∣ 2^k := by
        rw [← hk]
        exact hdvd
      obtain ⟨j, hj, hval⟩ := (Nat.dvd_prime_pow Nat.prime_two).mp hdvd2
      exact ⟨j, hval⟩
    · exact reduced_den_pos _ _ hpos
    · exact le_trans (Nat.div_le_self _ _) hle
    · exact reduced_num_zero _ _ hpos

/-- C6: reduced-form invariant — for every finite non-negative value and
power-of-two `maxDenominator`, the result has coprime numerator and
denominator (`gcd = 1`), a zero numerator forces denominator `1`, and the
denominator divides `maxDenominator`. -/
theorem decimalToFraction_reduced (value : ℚ) (m : ℕ) (hv : 0 ≤ value) :
    Nat.gcd (decimalToFraction value (2^m)).numerator
        (decimalToFraction value (2^m)).denominator = 1 ∧
    ((decimalToFraction value (2^m)).numerator = 0 →
      (decimalToFraction value (2^m)).denominator = 1) ∧
    (decimalToFraction value (2^m)).denominator ∣ 2^m := by
  by_cases h : |value - ((⌊value⌋ : ℤ) : ℚ)| < 1/10000
  · rw [decimalToFraction_fast value (2^m) h]
    exact ⟨show Nat.gcd 0 1 = 1 from rfl, fun _ => rfl, one_dvd _⟩
  · rw [decimalToFraction_search value (2^m) h]
    have hden := searchFrom_denOk (value - ((⌊value⌋ : ℤ) : ℚ)) (2^m) (2^m) 1
      ⟨1, 1, |(value - ((⌊value⌋ : ℤ) : ℚ)) - 1 / 1|⟩ le_rfl
      ⟨⟨0, rfl⟩, le_rfl, Nat.one_le_two_pow⟩
    rw [pow_one] at hden
    obtain ⟨⟨k, hk⟩, hpos, hle⟩ := hden
    simp only
    refine ⟨reduced_coprime _ _ hpos, reduced_num_zero _ _ hpos, ?_⟩
    have hdvd := reduced_den_dvd
      (searchFrom (value - ((⌊value⌋ : ℤ) : ℚ)) (2^m) (2^m) 2
        ⟨1, 1, |(value - ((⌊value⌋ : ℤ) : ℚ)) - 1 / 1|⟩).num
      (searchFrom (value - ((⌊value⌋ : ℤ) : ℚ)) (2^m) (2^m) 2
        ⟨1, 1, |(value - ((⌊value⌋ : ℤ) : ℚ)) - 1 / 1|⟩).den
    have hdvd2 : (searchFrom (value - ((⌊value⌋ : ℤ) : ℚ)) (2^m) (2^m) 2
        ⟨1, 1, |(value - ((⌊value⌋ : ℤ) : ℚ)) - 1 / 1|⟩).den ∣ 2^m := by
      rw [hk]
      have hkm : k ≤ m := by
        rw [hk] at hle
        exact (Nat.pow_le_pow_iff_right (by norm_num)).mp hle
      exact pow_dvd_pow 2 hkm
    exact dvd_trans hdvd hdvd2

/-! ### Claim theorems -/

/-- C7: `formatFraction` renders, for every `FractionResult` with a positive
denominator (the data-model invariant): the whole number with a trailing inch
mark when the numerator is 0; `whole + 1` when the numerator equals the
denominator (roll-over); `numerator/denominator` with an inch mark and no
leading whole number when the whole part is 0; and otherwise
`whole numerator/denominator` with a trailing inch mark. -/
theorem formatFraction_cases (r : FractionResult) (hden : 1 ≤ r.denominator) :
    (r.numerator = 0 → formatFraction r = toString r.whole ++ "\"") ∧
    (r.numerator = r.denominator →
      formatFraction r = toString (r.whole + 1) ++ "\"") ∧
    (r.numerator ≠ 0 → r.numerator ≠ r.denominator → r.whole = 0 →
      formatFraction r
        = toString r.numerator ++ "/" ++ toString r.denominator ++ "\"") ∧
    (r.numerator ≠ 0 → r.numerator ≠ r.denominator → r.whole ≠ 0 →
      formatFraction r = toString r.whole ++ " " ++ toString r.numerator ++ "/"
        ++ toString r.denominator ++ "\"") := by
  refine ⟨?_, ?_, ?_, ?_⟩
  · intro h0
    have hne : ¬ r.numerator = r.denominator := by omega
    simp only [formatFraction]
    rw [if_pos (Or.inl h0), if_neg hne]
  · intro heq
    simp only [formatFraction]
    rw [if_pos (Or.inr heq), if_pos heq]
  · intro h0 hne hw
    simp only [formatFraction]
    rw [if_neg (by tauto), if_pos hw]
  · intro h0 hne hw
    simp only [formatFraction]
    rw [if_neg (by tauto), if_neg hw]

/-- C7 witness: the four branches at concrete results. -/
theorem formatFraction_cases_witness :
    ((5:ℕ) = 0 → formatFraction ⟨5, 5, 8, 0, 0⟩ = toString (5:ℤ) ++ "\"") ∧
    ((5:ℕ) = 8 → formatFraction ⟨5, 5, 8, 0, 0⟩ = toString ((5:ℤ) + 1) ++ "\"") ∧
    ((5:ℕ) ≠ 0 → (5:ℕ) ≠ 8 → (5:ℤ) = 0 →
      formatFraction ⟨5, 5, 8, 0, 0⟩
        = toString (5:ℕ) ++ "/" ++ toString (8:ℕ) ++ "\"") ∧
    ((5:ℕ) ≠ 0 → (5:ℕ) ≠ 8 → (5:ℤ) ≠ 0 →
      formatFraction ⟨5, 5, 8, 0, 0⟩
        = toString (5:ℤ) ++ " " ++ toString (5:ℕ) ++ "/"
          ++ toString (8:ℕ) ++ "\"") :=
  formatFraction_cases ⟨5, 5, 8, 0, 0⟩ (by norm_num)

/-- C9: when the fractional part exceeds `1 - 1/(2·maxDenominator)`, every
search candidate rounds to `n = d` with error `1 - fp`, equal to the seed's
error and never strictly better, so the result is the seed `1/1` with error
`1 - fp`, and formatting rolls over to `floor(value) + 1` with an inch
mark. -/
theorem decimalToFraction_rollover (value : ℚ) (maxD : ℕ) (hmax : 1 ≤ maxD)
    (hf : 1 - 1/(2*(maxD:ℚ)) < value - ((⌊value⌋ : ℤ) : ℚ)) :
    decimalToFraction value maxD =
      { whole := ⌊value⌋, numerator := 1, denominator := 1, decimal := value,
        error := 1 - (value - ((⌊value⌋ : ℤ) : ℚ)) } ∧
    formatFraction (decimalToFraction value maxD)
      = toString (⌊value⌋ + 1) ++ "\"" := by
  have hfp1 : value - ((⌊value⌋ : ℤ) : ℚ) < 1 := by
    have := Int.sub_one_lt_floor value
    linarith
  have hfp0 : 0 ≤ value - ((⌊value⌋ : ℤ) : ℚ) := sub_nonneg.mpr (Int.floor_le value)
  have hmq : (1:ℚ) ≤ maxD := by exact_mod_cast hmax
  have hhalf : 1/(2*(maxD:ℚ)) ≤ 1/2 := by
    rw [div_le_div_iff₀ (by positivity) (by norm_num)]
    linarith
  have hnotfast : ¬ |value - ((⌊value⌋ : ℤ) : ℚ)| < 1/10000 := by
    rw [abs_of_nonneg hfp0]
    intro hcon
    linarith
  have hseed : |(value - ((⌊value⌋ : ℤ) : ℚ)) - 1 / 1|
      = 1 - (value - ((⌊value⌋ : ℤ) : ℚ)) := by
    rw [show ((1:ℚ)/1) = 1 by norm_num, abs_sub_comm, abs_of_nonneg (by linarith)]
  have hsearch : searchFrom (value - ((⌊value⌋ : ℤ) : ℚ)) maxD maxD 2
      ⟨1, 1, |(value - ((⌊value⌋ : ℤ) : ℚ)) - 1 / 1|⟩
      = ⟨1, 1, 1 - (value - ((⌊value⌋ : ℤ) : ℚ))⟩ := by
    rw [hseed]
    exact rollover_search (value - ((⌊value⌋ : ℤ) : ℚ)) maxD hf hfp1 maxD 2 (by omega)
  have hres : decimalToFraction value maxD =
      { whole := ⌊value⌋, numerator := 1, denominator := 1, decimal := value,
        error := 1 - (value - ((⌊value⌋ : ℤ) : ℚ)) } := by
    rw [decimalToFraction_eval value maxD ⌊value⌋ (value - ((⌊value⌋ : ℤ) : ℚ))
      rfl rfl hnotfast ⟨1, 1, 1 - (value - ((⌊value⌋ : ℤ) : ℚ))⟩ hsearch]
    norm_num [jsGcd_eq]
  refine ⟨hres, ?_⟩
  rw [hres]
  simp [formatFraction]

/-- C9 witness: `4.999` at `maxDenominator = 16` is in the roll-over regime
and formats as the next whole inch. -/
theorem decimalToFraction_rollover_witness :
    (1:ℕ) ≤ 16 ∧
    (1 - 1/(2*((16:ℕ):ℚ)) < (4999:ℚ)/1000 - ((⌊(4999:ℚ)/1000⌋ : ℤ) : ℚ)) ∧
    (decimalToFraction (4999/1000) 16 =
      { whole := ⌊(4999:ℚ)/1000⌋, numerator := 1, denominator := 1,
        decimal := 4999/1000,
        error := 1 - ((4999:ℚ)/1000 - ((⌊(4999:ℚ)/1000⌋ : ℤ) : ℚ)) } ∧
    formatFraction (decimalToFraction (4999/1000) 16)
      = toString (⌊(4999:ℚ)/1000⌋ + 1) ++ "\"") :=
  ⟨by norm_num,
   by rw [show ⌊(4999:ℚ)/1000⌋ = 4 by norm_num]; norm_num,
   decimalToFraction_rollover (4999/1000) 16 (by norm_num)
     (by rw [show ⌊(4999:ℚ)/1000⌋ = 4 by norm_num]; norm_num)⟩

/-- C10: at the degenerate `maxDenominator = 1` the loop body never runs
(`2 > 1`), so any value whose fractional part reaches the `1e-4` threshold
keeps the `1/1` seed with error `1 - fractionalPart`, and formats as
`floor(value) + 1`. -/
theorem decimalToFraction_maxDenominator_one (value : ℚ)
    (h : 1/10000 ≤ value - ((⌊value⌋ : ℤ) : ℚ)) :
    decimalToFraction value 1 =
      { whole := ⌊value⌋, numerator := 1, denominator := 1, decimal := value,
        error := 1 - (value - ((⌊value⌋ : ℤ) : ℚ)) } ∧
    formatFraction (decimalToFraction value 1)
      = toString (⌊value⌋ + 1) ++ "\"" := by
  have hfp1 : value - ((⌊value⌋ : ℤ) : ℚ) < 1 := by
    have := Int.sub_one_lt_floor value
    linarith
  have hfp0 : 0 ≤ value - ((⌊value⌋ : ℤ) : ℚ) := sub_nonneg.mpr (Int.floor_le value)
  have hnotfast : ¬ |value - ((⌊value⌋ : ℤ) : ℚ)| < 1/10000 := by
    rw [abs_of_nonneg hfp0]
    intro hcon
    linarith
  have hseed : |(value - ((⌊value⌋ : ℤ) : ℚ)) - 1 / 1|
      = 1 - (value - ((⌊value⌋ : ℤ) : ℚ)) := by
    rw [show ((1:ℚ)/1) = 1 by norm_num, abs_sub_comm, abs_of_nonneg (by linarith)]
  have hsearch : searchFrom (value - ((⌊value⌋ : ℤ) : ℚ)) 1 1 2
      ⟨1, 1, |(value - ((⌊value⌋ : ℤ) : ℚ)) - 1 / 1|⟩
      = ⟨1, 1, 1 - (value - ((⌊value⌋ : ℤ) : ℚ))⟩ := by
    rw [hseed]
    exact searchFrom_one _ _
  have hres : decimalToFraction value 1 =
      { whole := ⌊value⌋, numerator := 1, denominator := 1, decimal := value,
        error := 1 - (value - ((⌊value⌋ : ℤ) : ℚ)) } := by
    rw [decimalToFraction_eval value 1 ⌊value⌋ (value - ((⌊value⌋ : ℤ) : ℚ))
      rfl rfl hnotfast ⟨1, 1, 1 - (value - ((⌊value⌋ : ℤ) : ℚ))⟩ hsearch]
    norm_num [jsGcd_eq]
  refine ⟨hres, ?_⟩
  rw [hres]
  simp [formatFraction]

/-- C10 witness: `approximate(5.01, 1)` keeps the `1/1` seed and formats as
`"6\""`, not `"5\""`. -/
theorem decimalToFraction_maxDenominator_one_witness :
    (1/10000 ≤ (501:ℚ)/100 - ((⌊(501:ℚ)/100⌋ : ℤ) : ℚ)) ∧
    (decimalToFraction (501/100) 1 =
      { whole := ⌊(501:ℚ)/100⌋, numerator := 1, denominator := 1,
        decimal := 501/100,
        error := 1 - ((501:ℚ)/100 - ((⌊(501:ℚ)/100⌋ : ℤ) : ℚ)) } ∧
    formatFraction (decimalToFraction (501/100) 1)
      = toString (⌊(501:ℚ)/100⌋ + 1) ++ "\"") :=
  ⟨by rw [show ⌊(501:ℚ)/100⌋ = 5 by norm_num]; norm_num,
   decimalToFraction_maxDenominator_one (501/100)
     (by rw [show ⌊(501:ℚ)/100⌋ = 5 by norm_num]; norm_num)⟩

/-- C1 counterexample: at `value = 0.3`, `maxDenominator = 16` the winning
candidate is `5/16 > 0.3`, so the spec's signed error would be `-1/80`, but
the code stores the absolute value `+1/80`. -/
theorem error_not_signed_counterexample :
    (decimalToFraction (3/10) 16).error = 1/80 ∧
    ((3:ℚ)/10 - ((⌊(3:ℚ)/10⌋ : ℤ) : ℚ)) -
      ((decimalToFraction (3/10) 16).numerator : ℚ)
        / ((decimalToFraction (3/10) 16).denominator : ℚ) = -(1/80) ∧
    ((1:ℚ)/80) ≠ -(1/80) := by
  rw [eval_3tenths]
  refine ⟨rfl, ?_, by norm_num⟩
  rw [show ⌊(3:ℚ)/10⌋ = 0 by norm_num]
  norm_num

/-- C1 (amended): away from the fast path the `error` field is the unsigned
distance `|fractionalPart - numerator/denominator|` — an absolute value,
never negative — and `approximate(1/3, 64)` yields `21/64` with error
`+1/192 ≈ +0.0052` (not `-0.00077`). -/
theorem decimalToFraction_error_unsigned (value : ℚ) (maxD : ℕ)
    (h : ¬ |value - ((⌊value⌋ : ℤ) : ℚ)| < 1/10000) :
    (decimalToFraction value maxD).error =
      |(value - ((⌊value⌋ : ℤ) : ℚ)) -
        ((decimalToFraction value maxD).numerator : ℚ)
          / ((decimalToFraction value maxD).denominator : ℚ)| ∧
    0 ≤ (decimalToFraction value maxD).error ∧
    decimalToFraction (1/3) 64 = ⟨0, 21, 64, 1/3, 1/192⟩ :=
  ⟨decimalToFraction_error_eq_abs value maxD h,
   decimalToFraction_error_nonneg value maxD, eval_third⟩

/-- C1 witness: the amended statement at `value = 0.3`, `maxDenominator = 16`. -/
theorem decimalToFraction_error_unsigned_witness :
    (¬ |(3:ℚ)/10 - ((⌊(3:ℚ)/10⌋ : ℤ) : ℚ)| < 1/10000) ∧
    ((decimalToFraction (3/10) 16).error =
      |((3:ℚ)/10 - ((⌊(3:ℚ)/10⌋ : ℤ) : ℚ)) -
        ((decimalToFraction (3/10) 16).numerator : ℚ)
          / ((decimalToFraction (3/10) 16).denominator : ℚ)| ∧
    0 ≤ (decimalToFraction (3/10) 16).error ∧
    decimalToFraction (1/3) 64 = ⟨0, 21, 64, 1/3, 1/192⟩) :=
  ⟨by
    rw [show ⌊(3:ℚ)/10⌋ = 0 by norm_num]
    rw [show |(3:ℚ)/10 - ((0:ℤ):ℚ)| = 3/10 by norm_num]
    norm_num,
   decimalToFraction_error_unsigned (3/10) 16
    (by
      rw [show ⌊(3:ℚ)/10⌋ = 0 by norm_num]
      rw [show |(3:ℚ)/10 - ((0:ℤ):ℚ)| = 3/10 by norm_num]
      norm_num)⟩

/-- C2 counterexample: `4.99999` has fractional part `0.99999`, which does
not satisfy `|fractionalPart| < 1e-4`, so it does not take the fast path:
the result has numerator `1` and error `1e-5`, not numerator `0` and error
`0`. -/
theorem fast_path_counterexample :
    (decimalToFraction (499999/100000) 16).numerator ≠ 0 ∧
    (decimalToFraction (499999/100000) 16).error ≠ 0 := by
  rw [eval_just_below]
  exact ⟨by norm_num, by norm_num⟩

/-- C2 (amended): the fast path fires exactly when the fractional part is
below `1e-4` — at integers (`12.0`) and just above them (`5.00001`) — but a
value just below an integer (`4.99999`, fractional part `0.99999`) takes the
search path and returns the `1/1` roll-over seed with error `1e-5`; it still
formats as `"5\""` through the `numerator == denominator` branch. -/
theorem fast_path_amended :
    decimalToFraction 12 32 = ⟨12, 0, 1, 12, 0⟩ ∧
    decimalToFraction (500001/100000) 16 = ⟨5, 0, 1, 500001/100000, 0⟩ ∧
    decimalToFraction (499999/100000) 16 = ⟨4, 1, 1, 499999/100000, 1/100000⟩ ∧
    formatFraction (decimalToFraction (499999/100000) 16) = "5\"" := by
  refine ⟨eval_twelve, eval_just_above, eval_just_below, ?_⟩
  rw [eval_just_below]
  rfl

/-- C3 counterexample: `4.99999` at `maxDenominator = 16` returns denominator
`1` with numerator `1`, so "denominator = 1 exactly when numerator = 0"
fails in the only-if direction. -/
theorem denominator_one_counterexample :
    (decimalToFraction (499999/100000) 16).denominator = 1 ∧
    (decimalToFraction (499999/100000) 16).numerator ≠ 0 := by
  rw [eval_just_below]
  exact ⟨rfl, by norm_num⟩

/-- C3 witness: the amended invariant at `approximate(5.375, 16)`. -/
theorem decimalToFraction_den_invariant_witness :
    (1:ℕ) ≤ 16 ∧
    ((∃ k, (decimalToFraction (43/8) 16).denominator = 2^k) ∧
    1 ≤ (decimalToFraction (43/8) 16).denominator ∧
    (decimalToFraction (43/8) 16).denominator ≤ 16 ∧
    ((decimalToFraction (43/8) 16).numerator = 0 →
      (decimalToFraction (43/8) 16).denominator = 1)) :=
  ⟨by norm_num, decimalToFraction_den_invariant (43/8) 16 (by norm_num)⟩

/-- C4 counterexample: at the contract-permitted `maxDenominator = 1` the
search never runs and `approximate(1.2, 1)` returns `1 + 1/1 = 2`, missing
`1.2` by `0.8`, far beyond `1/(2·1) + ε` even for a generous `ε = 1/100`
(the claim's `ε` only covers the `1e-5` and `1e-4` margins). -/
theorem roundtrip_bound_counterexample :
    |(6:ℚ)/5 - (((decimalToFraction (6/5) 1).whole : ℚ)
      + ((decimalToFraction (6/5) 1).numerator : ℚ)
        / ((decimalToFraction (6/5) 1).denominator : ℚ))| = 4/5 ∧
    ¬ ((4:ℚ)/5 ≤ 1/(2*((1:ℕ):ℚ)) + 1/100) := by
  rw [eval_sixfifths_one]
  refine ⟨?_, by norm_num⟩
  rw [show |(6:ℚ)/5 - (((1:ℤ):ℚ) + ((1:ℕ):ℚ)/((1:ℕ):ℚ))| = 4/5 by norm_num]

/-- C4 witness: the amended bound at `x = 1/3`, `maxDenominator = 2^4 = 16`. -/
theorem decimalToFraction_bound_witness :
    (0:ℚ) ≤ 1/3 ∧ (1:ℕ) ≤ 4 ∧
    |(1:ℚ)/3 - (((decimalToFraction (1/3) (2^4)).whole : ℚ)
        + ((decimalToFraction (1/3) (2^4)).numerator : ℚ)
          / ((decimalToFraction (1/3) (2^4)).denominator : ℚ))|
      ≤ 1 / (2 * ((2^4 : ℕ) : ℚ)) + 1/10000 :=
  ⟨by norm_num, by norm_num, decimalToFraction_bound (1/3) 4 (by norm_num) (by norm_num)⟩

/-- C5: the simplicity tie-break — `0.5` reduces to `1/2` (never `8/16` or
`16/32`), `0.25` to `1/4`, and `0.125` to `1/8`, at every
`maxDenominator ∈ {16, 32, 64}`. -/
theorem simplicity_tie_break :
    ((decimalToFraction (1/2) 16).numerator = 1 ∧
      (decimalToFraction (1/2) 16).denominator = 2) ∧
    ((decimalToFraction (1/2) 32).numerator = 1 ∧
      (decimalToFraction (1/2) 32).denominator = 2) ∧
    ((decimalToFraction (1/2) 64).numerator = 1 ∧
      (decimalToFraction (1/2) 64).denominator = 2) ∧
    ((decimalToFraction (1/4) 16).numerator = 1 ∧
      (decimalToFraction (1/4) 16).denominator = 4) ∧
    ((decimalToFraction (1/4) 32).numerator = 1 ∧
      (decimalToFraction (1/4) 32).denominator = 4) ∧
    ((decimalToFraction (1/4) 64).numerator = 1 ∧
      (decimalToFraction (1/4) 64).denominator = 4) ∧
    ((decimalToFraction (1/8) 16).numerator = 1 ∧
      (decimalToFraction (1/8) 16).denominator = 8) ∧
    ((decimalToFraction (1/8) 32).numerator = 1 ∧
      (decimalToFraction (1/8) 32).denominator = 8) ∧
    ((decimalToFraction (1/8) 64).numerator = 1 ∧
      (decimalToFraction (1/8) 64).denominator = 8) := by
  rw [eval_half_16, eval_half_32, eval_half_64, eval_quarter_16, eval_quarter_32,
    eval_quarter_64, eval_eighth_16, eval_eighth_32, eval_eighth_64]
  norm_num

/-- C6 witness: the reduced-form invariant at `x = 5.375`,
`maxDenominator = 2^4 = 16`. -/
theorem decimalToFraction_reduced_witness :
    (0:ℚ) ≤ 43/8 ∧
    (Nat.gcd (decimalToFraction (43/8) (2^4)).numerator
        (decimalToFraction (43/8) (2^4)).denominator = 1 ∧
    ((decimalToFraction (43/8) (2^4)).numerator = 0 →
      (decimalToFraction (43/8) (2^4)).denominator = 1) ∧
    (decimalToFraction (43/8) (2^4)).denominator ∣ 2^4) :=
  ⟨by norm_num, decimalToFraction_reduced (43/8) 4 (by norm_num)⟩

/-- C8: `approximate(5.375, 16)` returns exactly
`{whole: 5, numerator: 3, denominator: 8, decimal: 5.375, error: 0}` — the
`3/8` candidate found at `d = 8` has zero error, `6/16` is not strictly
better and is rejected, and `3/8` is already in lowest terms — and the
formatted result is `5 3/8"`. -/
theorem scenario_5375 :
    decimalToFraction (43/8) 16 = ⟨5, 3, 8, 43/8, 0⟩ ∧
    formatFraction (decimalToFraction (43/8) 16) = "5 3/8\"" := by
  refine ⟨eval_5375, ?_⟩
  rw [eval_5375]
  rfl

end TapeMeasure
